import Mathlib

/-!
# Verification of `SNARL_import.py` (CA-SSN hot-staging validator)

A shallow embedding, in Lean 4, of the single-file Python program
`SNARL_import.py`, together with theorems settling the specification
claims about it.

Modelling conventions:

* A file's byte content is a `List Nat` (each element < 256).
* `hashlib.sha256` objects are modelled extensionally: the object's state
  is the list of bytes absorbed so far (`update` appends), and
  `hexdigest` applies the SHA-256 function — implemented concretely
  below (padding, message schedule, 64-round compression, all 32-bit
  arithmetic as `Nat` mod 2^32) — to the absorbed bytes.
* The filesystem visible to the script is a function from an allowed
  sub-directory name to the list of regular files `rglob` enumerates
  under it (in enumeration order).  A `pathlib` path that cannot be
  opened/read is a file whose `content` is `none`: `open`/`read` then
  raises `OSError`, modelled as `Except.error`.
* `float(...)` (CPython) is modelled by `pyFloat`, an exact rational
  parser of finite decimal literals (sign, digits, optional fraction,
  optional exponent).  The claims under study depend only on whether
  coercion succeeds and on its determinism, not on binary rounding.
* `datetime.utcfromtimestamp(..).isoformat()` is modelled for integral
  non-negative timestamps by `isoformat`, using the standard
  civil-from-days calendar algorithm.
* Uncaught Python exceptions (OSError while hashing, ValueError from
  `float`) abort `main`; this is `RunResult.error`.  `sys.exit(msg)`
  with a message terminates with a failure indication.
-/

/-! ## SHA-256 (models `hashlib.sha256`) -/

/-- Truncation to a 32-bit word. -/
def w32 (n : Nat) : Nat := n % 4294967296

/-- 32-bit right rotation. -/
def rotr32 (n x : Nat) : Nat := w32 ((x >>> n) ||| (x <<< (32 - n)))

/-- SHA-256 `Ch` function. -/
def shaCh (x y z : Nat) : Nat := (x &&& y) ^^^ ((x ^^^ 4294967295) &&& z)

/-- SHA-256 `Maj` function. -/
def shaMaj (x y z : Nat) : Nat := (x &&& y) ^^^ (x &&& z) ^^^ (y &&& z)

/-- SHA-256 big Σ₀. -/
def bigSigma0 (x : Nat) : Nat := rotr32 2 x ^^^ rotr32 13 x ^^^ rotr32 22 x

/-- SHA-256 big Σ₁. -/
def bigSigma1 (x : Nat) : Nat := rotr32 6 x ^^^ rotr32 11 x ^^^ rotr32 25 x

/-- SHA-256 small σ₀. -/
def smallSigma0 (x : Nat) : Nat := rotr32 7 x ^^^ rotr32 18 x ^^^ (x >>> 3)

/-- SHA-256 small σ₁. -/
def smallSigma1 (x : Nat) : Nat := rotr32 17 x ^^^ rotr32 19 x ^^^ (x >>> 10)

/-- The 64 SHA-256 round constants (FIPS 180-4, in decimal). -/
def shaK : List Nat :=
  [1116352408, 1899447441, 3049323471, 3921009573, 961987163,
   1508970993, 2453635748, 2870763221, 3624381080, 310598401,
   607225278, 1426881987, 1925078388, 2162078206, 2614888103,
   3248222580, 3835390401, 4022224774, 264347078, 604807628,
   770255983, 1249150122, 1555081692, 1996064986, 2554220882,
   2821834349, 2952996808, 3210313671, 3336571891, 3584528711,
   113926993, 338241895, 666307205, 773529912, 1294757372,
   1396182291, 1695183700, 1986661051, 2177026350, 2456956037,
   2730485921, 2820302411, 3259730800, 3345764771, 3516065817,
   3600352804, 4094571909, 275423344, 430227734, 506948616,
   659060556, 883997877, 958139571, 1322822218, 1537002063,
   1747873779, 1955562222, 2024104815, 2227730452, 2361852424,
   2428436474, 2756734187, 3204031479, 3329325298]

/-- The SHA-256 initial hash value (FIPS 180-4, in decimal). -/
def shaH0 : List Nat :=
  [1779033703, 3144134277, 1013904242, 2773480762, 1359893119,
   2600822924, 528734635, 1541459225]

/-- Big-endian 8-byte encoding of a natural number (used for the length field). -/
def be64 (n : Nat) : List Nat :=
  [(n >>> 56) &&& 255, (n >>> 48) &&& 255, (n >>> 40) &&& 255, (n >>> 32) &&& 255,
   (n >>> 24) &&& 255, (n >>> 16) &&& 255, (n >>> 8) &&& 255, n &&& 255]

/-- SHA-256 message padding: append `0x80`, zeros, and the 64-bit bit length. -/
def shaPad (msg : List Nat) : List Nat :=
  let L := msg.length
  let k := (64 - ((L + 9) % 64)) % 64
  msg ++ [128] ++ List.replicate k 0 ++ be64 (8 * L)

/-- Split a list into consecutive groups of `n`; the `fuel` argument (one
unit per group produced, `l.length` always suffices for `n > 0`) makes the
recursion structural so that the kernel can evaluate it. -/
def groupsOfAux (n : Nat) : Nat → List Nat → List (List Nat)
  | _, [] => []
  | 0, _ => []
  | fuel + 1, l => if n = 0 then [] else l.take n :: groupsOfAux n fuel (l.drop n)

/-- Split a list into consecutive groups of `n` (n > 0 assumed by callers). -/
def groupsOf (n : Nat) (l : List Nat) : List (List Nat) :=
  groupsOfAux n l.length l

/-- Assemble one 32-bit word from four big-endian bytes. -/
def word32 (bs : List Nat) : Nat :=
  bs.foldl (fun a b => a * 256 + b) 0

/-- Parse a padded message into blocks of sixteen 32-bit words. -/
def shaBlocks (msg : List Nat) : List (List Nat) :=
  (groupsOf 64 (shaPad msg)).map (fun blk => (groupsOf 4 blk).map word32)

/-- Extend the 16-word message block by `n` further schedule words. -/
def shaExtend : Nat → List Nat → List Nat
  | 0, ws => ws
  | n + 1, ws =>
      let i := ws.length
      let w := w32 (smallSigma1 (ws.getD (i - 2) 0) + ws.getD (i - 7) 0 +
                    smallSigma0 (ws.getD (i - 15) 0) + ws.getD (i - 16) 0)
      shaExtend n (ws ++ [w])

/-- One SHA-256 compression round on the 8-word working state. -/
def shaRound (st : List Nat) (kw : Nat × Nat) : List Nat :=
  let a := st.getD 0 0
  let b := st.getD 1 0
  let c := st.getD 2 0
  let d := st.getD 3 0
  let e := st.getD 4 0
  let f := st.getD 5 0
  let g := st.getD 6 0
  let h := st.getD 7 0
  let t1 := w32 (h + bigSigma1 e + shaCh e f g + kw.1 + kw.2)
  let t2 := w32 (bigSigma0 a + shaMaj a b c)
  [w32 (t1 + t2), a, b, c, w32 (d + t1), e, f, g]

/-- Compress one 16-word block into the running 8-word hash value. -/
def shaCompress (hv : List Nat) (block : List Nat) : List Nat :=
  let ws := shaExtend 48 block
  let st := (shaK.zip ws).foldl shaRound hv
  List.zipWith (fun x y => w32 (x + y)) hv st

/-- The eight 32-bit words of the SHA-256 digest of a byte string. -/
def sha256words (msg : List Nat) : List Nat :=
  (shaBlocks msg).foldl shaCompress shaH0

/-- Lower-case hex digit for a nibble. -/
def hexDigit (n : Nat) : Char :=
  if n < 10 then Char.ofNat (48 + n) else Char.ofNat (87 + n)

/-- Eight lower-case hex digits of a 32-bit word, most significant first. -/
def hex8 (w : Nat) : List Char :=
  [hexDigit ((w >>> 28) &&& 15), hexDigit ((w >>> 24) &&& 15),
   hexDigit ((w >>> 20) &&& 15), hexDigit ((w >>> 16) &&& 15),
   hexDigit ((w >>> 12) &&& 15), hexDigit ((w >>> 8) &&& 15),
   hexDigit ((w >>> 4) &&& 15), hexDigit (w &&& 15)]

/-- SHA-256 hex digest of a full byte string, as `hashlib`'s `hexdigest`
returns it when the whole message was absorbed. -/
def sha256hex (msg : List Nat) : String :=
  String.mk ((sha256words msg).flatMap hex8)

/-! ## `sha256sum` (source lines 38–44)

```python
def sha256sum(fpath, block=131072):
    h = hashlib.sha256()
    with open(fpath, "rb") as fh:
        for chunk in iter(lambda: fh.read(block), b""):
            h.update(chunk)
    return h.hexdigest()
```

`readChunks` models `iter(lambda: fh.read(block), b"")`: successive reads
of at most `block` bytes until a read returns the empty byte string
(`fh.read(0)` returns `b""` at once, so `block = 0` yields no chunks).
The hash object's absorbed-byte state is threaded through `h.update` by
`List.foldl`; `hexdigest` is `sha256hex` of the absorbed bytes. -/

/-- The successive reads: each call consumes at least one byte while the
content is non-empty and `block > 0`, so `content.length` units of fuel
suffice; the fuel keeps the recursion structural (kernel-evaluable). -/
def readChunksAux (block : Nat) : Nat → List Nat → List (List Nat)
  | _, [] => []
  | 0, _ => []
  | fuel + 1, content =>
      if block = 0 then []
      else content.take block :: readChunksAux block fuel (content.drop block)

/-- The successive chunks `fh.read(block)` returns for a file whose full
content is `content`. -/
def readChunks (block : Nat) (content : List Nat) : List (List Nat) :=
  readChunksAux block content.length content

/-- Return the SHA-256 hex digest of a file's content, read in
`block`-byte chunks (source default `block = 131072`). -/
def sha256sum (content : List Nat) (block : Nat) : String :=
  sha256hex ((readChunks block content).foldl (fun absorbed chunk => absorbed ++ chunk) [])

/-- The chunk size `sha256sum` is called with in `main` (the Python
default argument `block=131072`). -/
def defaultBlock : Nat := 131072

/-! ## Python `float(...)` (CPython numeric coercion)

`float(row["latitude"])` either returns a number or raises `ValueError`.
`pyFloat` models it as an exact rational parser for finite decimal
literals: optional sign, digits, optional `.` and fraction digits (at
least one digit overall), optional `e`/`E` exponent with its own optional
sign and mandatory digits.  `none` models the raised `ValueError`. -/

/-- Numeric value of a list of decimal digit characters. -/
def digitsVal (cs : List Char) : Nat :=
  cs.foldl (fun a c => a * 10 + (c.toNat - 48)) 0

/-- Model of CPython's `float(...)` on finite decimal literals. -/
def pyFloat (s : String) : Option ℚ :=
  let signed : ℚ × List Char :=
    match s.data with
    | '+' :: t => (1, t)
    | '-' :: t => (-1, t)
    | t => (1, t)
  let sgn := signed.1
  let ipSplit := signed.2.span Char.isDigit
  let ip := ipSplit.1
  let fpSplit : List Char × List Char :=
    match ipSplit.2 with
    | '.' :: t => t.span Char.isDigit
    | r => ([], r)
  let fp := fpSplit.1
  let withDot : Bool :=
    match ipSplit.2 with
    | '.' :: _ => true
    | _ => false
  let rest2 := if withDot then fpSplit.2 else ipSplit.2
  let expPart : Option (Int × List Char) :=
    match rest2 with
    | 'e' :: t => some (1, t)
    | 'E' :: t => some (1, t)
    | _ => none
  match expPart with
  | none =>
      if rest2 = [] ∧ ip ++ fp ≠ [] then
        some (sgn * ((digitsVal ip : ℚ) + (digitsVal fp : ℚ) / (10 : ℚ) ^ fp.length))
      else none
  | some et =>
      let esigned : Int × List Char :=
        match et.2 with
        | '+' :: u => (1, u)
        | '-' :: u => (-1, u)
        | u => (1, u)
      let edSplit := esigned.1 :: [] |>.length |> fun _ => esigned.2.span Char.isDigit
      let ed := edSplit.1
      if edSplit.2 = [] ∧ ed ≠ [] ∧ ip ++ fp ≠ [] then
        some (sgn * ((digitsVal ip : ℚ) + (digitsVal fp : ℚ) / (10 : ℚ) ^ fp.length) *
              (10 : ℚ) ^ (esigned.1 * (digitsVal ed : Int)))
      else none

/-! ## `datetime.utcfromtimestamp(t).isoformat()`

Modelled for integral non-negative Unix timestamps (the script reads
`st_mtime` and feeds it here; fractional mtimes would add a fractional
seconds field, which none of the claims depend on). -/

/-- Two-digit zero-padded decimal rendering. -/
def pad2 (n : Nat) : String := if n < 10 then "0" ++ toString n else toString n

/-- Four-digit zero-padded decimal rendering. -/
def pad4 (n : Nat) : String :=
  if n < 10 then "000" ++ toString n
  else if n < 100 then "00" ++ toString n
  else if n < 1000 then "0" ++ toString n
  else toString n

/-- Standard civil-from-days conversion (days since 1970-01-01 to
`(year, month, day)`), valid for dates from 0001-01-01 on. -/
def civilFromDays (z : Nat) : Nat × Nat × Nat :=
  let zs := z + 719468
  let era := zs / 146097
  let doe := zs % 146097
  let yoe := (doe - doe / 1460 + doe / 36524) / 365
  let y := yoe + era * 400
  let doy := doe - (365 * yoe + yoe / 4 - yoe / 100)
  let mp := (5 * doy + 2) / 153
  let d := doy - (153 * mp + 2) / 5 + 1
  let m := if mp < 10 then mp + 3 else mp - 9
  if m ≤ 2 then (y + 1, m, d) else (y, m, d)

/-- `datetime.utcfromtimestamp(t).isoformat()` for an integral `t ≥ 0`
(with zero microseconds `isoformat` emits no fractional part). -/
def isoformat (t : Nat) : String :=
  let days := t / 86400
  let secs := t % 86400
  let ymd := civilFromDays days
  pad4 ymd.1 ++ "-" ++ pad2 ymd.2.1 ++ "-" ++ pad2 ymd.2.2 ++ "T" ++
    pad2 (secs / 3600) ++ ":" ++ pad2 (secs % 3600 / 60) ++ ":" ++ pad2 (secs % 60)

/-! ## Configuration constants (source lines 27–32)

`ALLOWED_DIRS` is a Python `set` literal; it is modelled as the list of
its elements in literal order (set iteration order is unspecified in
Python; every claim under study is insensitive to the order). -/

def SITE_ID : String := "SNARL"

def VISIT_DATE : String := "20250610"

def ALLOWED_DIRS : List String := ["bird_01", "bat_01", "trad_01", "drift_01"]

/-! ## Manifest rows and `load_deployments` (source lines 49–62) -/

/-- One `csv.DictReader` row of the deployment CSV, with the columns the
script reads.  `row.get("start_utc")`/`row.get("end_utc")` return `None`
when the column is absent, hence `Option`.  (A CSV whose header lacks one
of the five required columns would raise `KeyError`; such manifests are
outside the model.) -/
structure Row where
  device_serial : String
  deployment_id : String
  sensor_type : String
  latitude : String
  longitude : String
  start_utc : Option String
  end_utc : Option String
deriving DecidableEq, Repr

/-- ASCII upper-casing, the effect of Python's `str.upper()` on the
serial/folder strings in play. -/
def pyUpper (s : String) : String := String.mk (s.data.map Char.toUpper)

/-- The composite key `(row["device_serial"].upper(), row["deployment_id"])`
of source line 60. -/
def rowKey (row : Row) : String × String := (pyUpper row.device_serial, row.deployment_id)

/-- `load_deployments`: builds the lookup dict keyed by
`(device_serial.upper(), deployment_id)`.  The Python dict is modelled as
a function; the successive assignments `look[key] = row` are the fold, a
later assignment shadowing an earlier one with the same key. -/
def load_deployments (rows : List Row) : String × String → Option Row :=
  rows.foldl
    (fun look row => fun key => if key = rowKey row then some row else look key)
    (fun _ => none)

/-! ## Discovered files, stubs, and `build_stub` (source lines 67–89) -/

/-- One regular file enumerated by `rglob` under an allowed sub-directory:
its path relative to the visit root (`rel`, as `as_posix()` renders it),
its base name without the final suffix (`fp.stem`), its byte content
(`none` when `open`/`read` raises `OSError`), and its integral mtime. -/
structure FileEntry where
  rel : String
  stem : String
  content : Option (List Nat)
  mtime : Nat
deriving DecidableEq, Repr

/-- The JSON side-car record `build_stub` returns (source lines 76–89). -/
structure Stub where
  site_id : String
  deployment_id : String
  device_serial : String
  sensor_type : String
  latitude : ℚ
  longitude : ℚ
  start_utc : Option String
  end_utc : Option String
  timestamp_file : String
  checksum_sha256 : String
  file_relpath : String
  import_version : String
deriving DecidableEq, Repr

/-- `build_stub(row, relpath, checksum)`.  `float(row["latitude"])` or
`float(row["longitude"])` raising `ValueError` is the `none` result; the
file mtime read by `relpath.stat()` is the entry's `mtime` field. -/
def build_stub (row : Row) (e : FileEntry) (checksum : String) : Option Stub :=
  let ts_file := isoformat e.mtime ++ "Z"
  match pyFloat row.latitude, pyFloat row.longitude with
  | some lat, some lon =>
      some { site_id := SITE_ID
             deployment_id := row.deployment_id
             device_serial := row.device_serial
             sensor_type := row.sensor_type
             latitude := lat
             longitude := lon
             start_utc := row.start_utc
             end_utc := row.end_utc
             timestamp_file := ts_file
             checksum_sha256 := checksum
             file_relpath := e.rel
             import_version := "0.1" }
  | _, _ => none

/-! ## `main` (source lines 94–177) -/

/-- An uncaught Python exception that aborts `main` mid-run: `OSError`
from `sha256sum` (file unreadable) or `ValueError` from `float` inside
`build_stub`; tagged with the relative path of the file being processed. -/
inductive RunError where
  | ioError (rel : String)
  | valueError (rel : String)
deriving DecidableEq, Repr

/-- The mutable loop state of `main` (source lines 109–111 and the
side-car writes): `total_files`, `unmatched_files`, `written_sidecars`,
and the log of side-car writes `(file name, content)` in write order. -/
structure LoopState where
  total : Nat
  unmatched : List String
  written : Nat
  sidecars : List (String × Stub)
deriving DecidableEq, Repr

/-- `serial_guess = sub.upper()` (source line 126). -/
def serial_guess (sub : String) : String := pyUpper sub

/-- `dep_id_guess = f"{SITE_ID}_{serial_guess}_{VISIT_DATE}"` (source line 127),
written with explicit concatenation. -/
def dep_id_guess (sub : String) : String :=
  SITE_ID ++ "_" ++ serial_guess sub ++ "_" ++ VISIT_DATE

/-- The composite lookup key the script derives for every file found
under sub-directory `sub` (source line 128). -/
def fileKey (sub : String) : String × String := (serial_guess sub, dep_id_guess sub)

/-- The body of the per-file loop (source lines 117–149) for one file:
count it, derive the key from the containing sub-directory, look it up,
and on a match checksum the file and write its side-car.  `Except.error`
is an uncaught exception propagating out of the loop. -/
def processFile (deployments : String × String → Option Row) (sub : String)
    (st : LoopState) (e : FileEntry) : Except RunError LoopState :=
  let st := { st with total := st.total + 1 }
  match deployments (fileKey sub) with
  | none => .ok { st with unmatched := st.unmatched ++ [e.rel] }
  | some row =>
      match e.content with
      | none => .error (.ioError e.rel)
      | some bytes =>
          let chksum := sha256sum bytes defaultBlock
          match build_stub row e chksum with
          | none => .error (.valueError e.rel)
          | some stub =>
              .ok { st with written := st.written + 1
                            sidecars := st.sidecars ++ [(e.stem ++ ".json", stub)] }

/-- The inner `for fp in (visit_root / sub).rglob("*")` loop over one
allowed sub-directory's files. -/
def processFiles (deployments : String × String → Option Row) (sub : String) :
    LoopState → List FileEntry → Except RunError LoopState
  | st, [] => .ok st
  | st, e :: es =>
      match processFile deployments sub st e with
      | .error er => .error er
      | .ok st' => processFiles deployments sub st' es

/-- The outer `for sub in ALLOWED_DIRS` loop. -/
def processAll (deployments : String × String → Option Row)
    (fs : String → List FileEntry) :
    LoopState → List String → Except RunError LoopState
  | st, [] => .ok st
  | st, sub :: subs =>
      match processFiles deployments sub st (fs sub) with
      | .error er => .error er
      | .ok st' => processAll deployments fs st' subs

/-- The aggregate counts of the final report (source lines 155–170):
total files found, side-cars written, and the unmatched relative paths in
append order. -/
structure Summary where
  total : Nat
  written : Nat
  unmatched : List String
deriving DecidableEq, Repr

/-- The observable outcome of one run of the script:
`missingCsv` — the `sys.exit` of line 99 (deployment CSV absent);
`error` — an uncaught exception aborted the run (no report written);
`finished` — the loop completed, the report was written; `good` is
`not unmatched_files` (line 154) and decides the final `sys.exit` of
line 177. -/
inductive RunResult where
  | missingCsv
  | error (er : RunError)
  | finished (s : Summary) (sidecarWrites : List (String × Stub)) (good : Bool)
deriving DecidableEq, Repr

/-- `main()` (the name `main` is reserved by Lean for executables, hence
`mainRun`): `manifest` is the parsed deployment CSV (`none` when the
file is absent, the line 98 check), `fs` gives the regular files `rglob`
enumerates under each allowed sub-directory (a non-existent
sub-directory enumerates no files). -/
def mainRun (manifest : Option (List Row)) (fs : String → List FileEntry) : RunResult :=
  match manifest with
  | none => .missingCsv
  | some rows =>
      let deployments := load_deployments rows
      match processAll deployments fs ⟨0, [], 0, []⟩ ALLOWED_DIRS with
      | .error er => .error er
      | .ok st =>
          .finished ⟨st.total, st.written, st.unmatched⟩ st.sidecars st.unmatched.isEmpty

/-- Whether the process terminates with a failure indication: `sys.exit`
with a message (lines 99 and 177) and an uncaught exception both do;
falling off the end of `main` exits 0. -/
def exitFailure : RunResult → Bool
  | .missingCsv => true
  | .error _ => true
  | .finished _ _ good => !good

/-! ## Derived views of one run, used to state the claims -/

/-- `some` of the written summary when the run completed, `none` when it
aborted or never started. -/
def summaryOf : RunResult → Option Summary
  | .finished s _ _ => some s
  | _ => none

/-- The side-car file names written, in write order (`write_text` to the
same name overwrites, so the files existing afterwards are the distinct
names). `none` when the run did not complete. -/
def sidecarNamesOf : RunResult → Option (List String)
  | .finished _ sc _ => some (sc.map Prod.fst)
  | _ => none

/-- Whether processing entry `e` (already known to have matched `row`)
raises an uncaught exception: its file is unreadable, or the matched
row's latitude/longitude does not coerce to a number. -/
def entryFault (row : Row) (e : FileEntry) : Bool :=
  match e.content with
  | none => true
  | some _ => (pyFloat row.latitude).isNone || (pyFloat row.longitude).isNone

/-- Whether some file under sub-directory `sub` raises an uncaught
exception during the run (files under an unmatched sub-directory never
do: they are skipped before any I/O). -/
def subFault (deployments : String × String → Option Row)
    (fs : String → List FileEntry) (sub : String) : Bool :=
  match deployments (fileKey sub) with
  | none => false
  | some row => (fs sub).any (entryFault row)

/-- Total number of files the enumeration yields. -/
def totalCount (fs : String → List FileEntry) : List String → Nat
  | [] => 0
  | sub :: subs => (fs sub).length + totalCount fs subs

/-- The matched `(row, file)` pairs, in enumeration order. -/
def matchedOf (deployments : String × String → Option Row)
    (fs : String → List FileEntry) : List String → List (Row × FileEntry)
  | [] => []
  | sub :: subs =>
      (match deployments (fileKey sub) with
       | some row => (fs sub).map (fun e => (row, e))
       | none => []) ++ matchedOf deployments fs subs

/-- The relative paths of unmatched files, in enumeration order. -/
def unmatchedOf (deployments : String × String → Option Row)
    (fs : String → List FileEntry) : List String → List String
  | [] => []
  | sub :: subs =>
      (match deployments (fileKey sub) with
       | some _ => []
       | none => (fs sub).map FileEntry.rel) ++ unmatchedOf deployments fs subs

/-- The stub a fault-free matched file ends up with (what `build_stub`
returns for it). -/
def stubOf (row : Row) (e : FileEntry) : Stub :=
  { site_id := SITE_ID
    deployment_id := row.deployment_id
    device_serial := row.device_serial
    sensor_type := row.sensor_type
    latitude := (pyFloat row.latitude).getD 0
    longitude := (pyFloat row.longitude).getD 0
    start_utc := row.start_utc
    end_utc := row.end_utc
    timestamp_file := isoformat e.mtime ++ "Z"
    checksum_sha256 := sha256sum (e.content.getD []) defaultBlock
    file_relpath := e.rel
    import_version := "0.1" }

/-- The side-car write a fault-free matched file produces: file name
`fp.stem + ".json"` and stub content. -/
def sidecarOf (row : Row) (e : FileEntry) : String × Stub := (e.stem ++ ".json", stubOf row e)

/-! ## Lemmas about the loader -/

theorem load_deployments_acc_untouched (rows : List Row)
    (acc : String × String → Option Row) (k : String × String)
    (h : ∀ r ∈ rows, rowKey r ≠ k) :
    rows.foldl
      (fun look row => fun key => if key = rowKey row then some row else look key)
      acc k = acc k := by
  induction rows generalizing acc with
  | nil => rfl
  | cons r rows ih =>
      simp only [List.foldl_cons]
      rw [ih _ (fun r' hr' => h r' (List.mem_cons_of_mem r hr'))]
      have hk : rowKey r ≠ k := h r (List.mem_cons_self r rows)
      exact if_neg (fun h' : k = rowKey r => hk h'.symm)

theorem load_deployments_eq_none (rows : List Row) (k : String × String)
    (h : ∀ r ∈ rows, rowKey r ≠ k) : load_deployments rows k = none := by
  unfold load_deployments
  rw [load_deployments_acc_untouched rows _ k h]

theorem load_deployments_acc_key (rows : List Row)
    (acc : String × String → Option Row)
    (hacc : ∀ k r, acc k = some r → k = rowKey r) :
    ∀ k r,
      rows.foldl
        (fun look row => fun key => if key = rowKey row then some row else look key)
        acc k = some r → k = rowKey r := by
  induction rows generalizing acc with
  | nil => exact hacc
  | cons r0 rows ih =>
      simp only [List.foldl_cons]
      refine ih _ ?_
      intro k r hk
      by_cases hc : k = rowKey r0
      · simp [hc] at hk
        rw [hc, ← hk]
      · simp [hc] at hk
        exact hacc k r hk

/-- Every key the index maps is derived from the mapped row as
`(device_serial.upper(), deployment_id)`. -/
theorem load_deployments_key (rows : List Row) (k : String × String) (r : Row)
    (h : load_deployments rows k = some r) : k = rowKey r :=
  load_deployments_acc_key rows _ (fun _ _ h' => absurd h' (by simp)) k r h

/-- Last row wins: splitting the manifest around the last row bearing a
given key, the index maps that key to exactly that row. -/
theorem load_deployments_last (l1 : List Row) (r : Row) (l2 : List Row)
    (h : ∀ r' ∈ l2, rowKey r' ≠ rowKey r) :
    load_deployments (l1 ++ r :: l2) (rowKey r) = some r := by
  unfold load_deployments
  rw [List.foldl_append, List.foldl_cons]
  rw [load_deployments_acc_untouched l2 _ _ h]
  simp

theorem load_deployments_acc_isSome (rows : List Row)
    (acc : String × String → Option Row) (k : String × String)
    (h : (acc k).isSome = true ∨ ∃ r ∈ rows, rowKey r = k) :
    (rows.foldl
      (fun look row => fun key => if key = rowKey row then some row else look key)
      acc k).isSome = true := by
  induction rows generalizing acc with
  | nil =>
      rcases h with h | h
      · exact h
      · simp at h
  | cons r0 rows ih =>
      simp only [List.foldl_cons]
      refine ih _ ?_
      by_cases hc : k = rowKey r0
      · left
        simp [hc]
      · rcases h with h | ⟨r, hr, hk⟩
        · left
          simpa [hc] using h
        · rcases List.mem_cons.mp hr with rfl | hr'
          · exact absurd hk.symm hc
          · exact Or.inr ⟨r, hr', hk⟩

/-- No row is ever excluded: the index is defined (`some`) at every
row's key. -/
theorem load_deployments_mem (rows : List Row) (r : Row) (h : r ∈ rows) :
    (load_deployments rows (rowKey r)).isSome = true :=
  load_deployments_acc_isSome rows _ _ (Or.inr ⟨r, h, rfl⟩)

/-! ## Lemmas about the per-file step -/

theorem processFile_unmatched (deployments : String × String → Option Row)
    (sub : String) (st : LoopState) (e : FileEntry)
    (h : deployments (fileKey sub) = none) :
    processFile deployments sub st e =
      .ok ⟨st.total + 1, st.unmatched ++ [e.rel], st.written, st.sidecars⟩ := by
  simp [processFile, h]

theorem build_stub_none (row : Row) (e : FileEntry) (checksum : String)
    (h : (pyFloat row.latitude).isNone = true ∨ (pyFloat row.longitude).isNone = true) :
    build_stub row e checksum = none := by
  unfold build_stub
  rcases hla : pyFloat row.latitude with _ | la <;>
    rcases hlo : pyFloat row.longitude with _ | lo <;>
      simp_all

theorem build_stub_some (row : Row) (e : FileEntry) (checksum : String)
    (la lo : ℚ) (hla : pyFloat row.latitude = some la)
    (hlo : pyFloat row.longitude = some lo) :
    build_stub row e checksum =
      some { site_id := SITE_ID
             deployment_id := row.deployment_id
             device_serial := row.device_serial
             sensor_type := row.sensor_type
             latitude := la
             longitude := lo
             start_utc := row.start_utc
             end_utc := row.end_utc
             timestamp_file := isoformat e.mtime ++ "Z"
             checksum_sha256 := checksum
             file_relpath := e.rel
             import_version := "0.1" } := by
  unfold build_stub
  rw [hla, hlo]

theorem processFile_matched_ok (deployments : String × String → Option Row)
    (sub : String) (st : LoopState) (e : FileEntry) (row : Row)
    (h : deployments (fileKey sub) = some row)
    (hf : entryFault row e = false) :
    processFile deployments sub st e =
      .ok ⟨st.total + 1, st.unmatched, st.written + 1, st.sidecars ++ [sidecarOf row e]⟩ := by
  unfold entryFault at hf
  rcases hc : e.content with _ | bytes
  · rw [hc] at hf
    simp at hf
  · rw [hc] at hf
    simp only [Bool.or_eq_false_iff, Option.isNone_eq_false_iff, Option.isSome_iff_exists] at hf
    obtain ⟨⟨la, hla⟩, ⟨lo, hlo⟩⟩ := hf
    simp only [processFile, h, hc]
    rw [build_stub_some row e _ la lo hla hlo]
    simp [sidecarOf, stubOf, hc, hla, hlo]

theorem processFile_matched_fault (deployments : String × String → Option Row)
    (sub : String) (st : LoopState) (e : FileEntry) (row : Row)
    (h : deployments (fileKey sub) = some row)
    (hf : entryFault row e = true) :
    ∃ er, processFile deployments sub st e = .error er := by
  unfold entryFault at hf
  rcases hc : e.content with _ | bytes
  · exact ⟨.ioError e.rel, by simp only [processFile, h, hc]⟩
  · rw [hc] at hf
    refine ⟨.valueError e.rel, ?_⟩
    simp only [processFile, h, hc]
    rw [build_stub_none row e _ (by simpa using hf)]

/-! ## Lemmas about one sub-directory's loop -/

theorem processFiles_cons_ok (deployments : String × String → Option Row)
    (sub : String) (st st' : LoopState) (e : FileEntry) (es : List FileEntry)
    (h : processFile deployments sub st e = .ok st') :
    processFiles deployments sub st (e :: es) = processFiles deployments sub st' es := by
  have hdef : processFiles deployments sub st (e :: es) =
      match processFile deployments sub st e with
      | .error er => .error er
      | .ok st2 => processFiles deployments sub st2 es := rfl
  rw [hdef, h]

theorem processFiles_cons_error (deployments : String × String → Option Row)
    (sub : String) (st : LoopState) (e : FileEntry) (es : List FileEntry)
    (er : RunError) (h : processFile deployments sub st e = .error er) :
    processFiles deployments sub st (e :: es) = .error er := by
  have hdef : processFiles deployments sub st (e :: es) =
      match processFile deployments sub st e with
      | .error er2 => .error er2
      | .ok st2 => processFiles deployments sub st2 es := rfl
  rw [hdef, h]

theorem processFiles_unmatched (deployments : String × String → Option Row)
    (sub : String) (h : deployments (fileKey sub) = none) :
    ∀ (es : List FileEntry) (st : LoopState),
      processFiles deployments sub st es =
        .ok ⟨st.total + es.length, st.unmatched ++ es.map FileEntry.rel,
             st.written, st.sidecars⟩ := by
  intro es
  induction es with
  | nil => intro st; simp [processFiles]
  | cons e es ih =>
      intro st
      rw [processFiles_cons_ok deployments sub st _ e es
            (processFile_unmatched deployments sub st e h), ih]
      simp [Nat.add_assoc, Nat.add_comm 1 es.length]

theorem processFiles_matched (deployments : String × String → Option Row)
    (sub : String) (row : Row) (h : deployments (fileKey sub) = some row) :
    ∀ (es : List FileEntry) (st : LoopState),
      (∀ e ∈ es, entryFault row e = false) →
      processFiles deployments sub st es =
        .ok ⟨st.total + es.length, st.unmatched, st.written + es.length,
             st.sidecars ++ es.map (sidecarOf row)⟩ := by
  intro es
  induction es with
  | nil => intro st _; simp [processFiles]
  | cons e es ih =>
      intro st hf
      rw [processFiles_cons_ok deployments sub st _ e es
            (processFile_matched_ok deployments sub st e row h
              (hf e (List.mem_cons_self e es))),
          ih _ (fun e' he' => hf e' (List.mem_cons_of_mem e he'))]
      simp [Nat.add_assoc, Nat.add_comm 1 es.length]

theorem processFiles_fault (deployments : String × String → Option Row)
    (sub : String) (row : Row) (h : deployments (fileKey sub) = some row) :
    ∀ (es : List FileEntry) (st : LoopState),
      (∃ e ∈ es, entryFault row e = true) →
      ∃ er, processFiles deployments sub st es = .error er := by
  intro es
  induction es with
  | nil => intro st hf; simp at hf
  | cons e es ih =>
      intro st hf
      by_cases he : entryFault row e = true
      · obtain ⟨er, her⟩ := processFile_matched_fault deployments sub st e row h he
        exact ⟨er, processFiles_cons_error deployments sub st e es er her⟩
      · rw [Bool.not_eq_true] at he
        obtain ⟨e', he', hf'⟩ := hf
        rcases List.mem_cons.mp he' with rfl | he''
        · rw [hf'] at he; cases he
        · obtain ⟨er, her⟩ := ih _ ⟨e', he'', hf'⟩
          refine ⟨er, ?_⟩
          rw [processFiles_cons_ok deployments sub st _ e es
                (processFile_matched_ok deployments sub st e row h he), her]

/-! ## Lemmas about the whole enumeration loop -/

theorem processAll_cons_ok (deployments : String × String → Option Row)
    (fs : String → List FileEntry) (st st' : LoopState) (sub : String)
    (subs : List String)
    (h : processFiles deployments sub st (fs sub) = .ok st') :
    processAll deployments fs st (sub :: subs) = processAll deployments fs st' subs := by
  have hdef : processAll deployments fs st (sub :: subs) =
      match processFiles deployments sub st (fs sub) with
      | .error er => .error er
      | .ok st2 => processAll deployments fs st2 subs := rfl
  rw [hdef, h]

theorem processAll_cons_error (deployments : String × String → Option Row)
    (fs : String → List FileEntry) (st : LoopState) (sub : String)
    (subs : List String) (er : RunError)
    (h : processFiles deployments sub st (fs sub) = .error er) :
    processAll deployments fs st (sub :: subs) = .error er := by
  have hdef : processAll deployments fs st (sub :: subs) =
      match processFiles deployments sub st (fs sub) with
      | .error er2 => .error er2
      | .ok st2 => processAll deployments fs st2 subs := rfl
  rw [hdef, h]

/-- A sub-directory with no fault leaves the loop state in the predicted
shape, whatever its match status. -/
theorem processFiles_noFault (deployments : String × String → Option Row)
    (fs : String → List FileEntry) (sub : String) (st : LoopState)
    (h : subFault deployments fs sub = false) :
    processFiles deployments sub st (fs sub) =
      .ok ⟨st.total + (fs sub).length,
           st.unmatched ++ (match deployments (fileKey sub) with
                            | some _ => []
                            | none => (fs sub).map FileEntry.rel),
           st.written + (match deployments (fileKey sub) with
                         | some _ => (fs sub).length
                         | none => 0),
           st.sidecars ++ (match deployments (fileKey sub) with
                           | some row => (fs sub).map (sidecarOf row)
                           | none => [])⟩ := by
  unfold subFault at h
  rcases hd : deployments (fileKey sub) with _ | row
  · rw [processFiles_unmatched deployments sub hd (fs sub) st]
    simp
  · rw [hd] at h
    have hall : ∀ e ∈ fs sub, entryFault row e = false := by
      intro e he
      rcases hfe : entryFault row e with _ | _
      · rfl
      · exact absurd h (by simp [List.any_eq_true]; exact ⟨e, he, hfe⟩)
    rw [processFiles_matched deployments sub row hd (fs sub) st hall]
    simp

/-- No fault anywhere: the loop completes and its final state is the
per-sub-directory aggregation of `totalCount`, `unmatchedOf`,
`matchedOf`. -/
theorem processAll_noFault (deployments : String × String → Option Row)
    (fs : String → List FileEntry) :
    ∀ (subs : List String) (st : LoopState),
      (∀ sub ∈ subs, subFault deployments fs sub = false) →
      processAll deployments fs st subs =
        .ok ⟨st.total + totalCount fs subs,
             st.unmatched ++ unmatchedOf deployments fs subs,
             st.written + (matchedOf deployments fs subs).length,
             st.sidecars ++ (matchedOf deployments fs subs).map (fun p => sidecarOf p.1 p.2)⟩ := by
  intro subs
  induction subs with
  | nil => intro st _; simp [processAll, totalCount, unmatchedOf, matchedOf]
  | cons sub subs ih =>
      intro st h
      rw [processAll_cons_ok deployments fs st _ sub subs
            (processFiles_noFault deployments fs sub st
              (h sub (List.mem_cons_self sub subs))),
          ih _ (fun s hs => h s (List.mem_cons_of_mem sub hs))]
      rcases hd : deployments (fileKey sub) with _ | row <;>
        simp [totalCount, unmatchedOf, matchedOf, hd, Nat.add_assoc]

/-- A fault in some listed sub-directory aborts the loop with an
uncaught exception. -/
theorem processAll_fault (deployments : String × String → Option Row)
    (fs : String → List FileEntry) :
    ∀ (subs : List String) (st : LoopState),
      (∃ sub ∈ subs, subFault deployments fs sub = true) →
      ∃ er, processAll deployments fs st subs = .error er := by
  intro subs
  induction subs with
  | nil => intro st hf; simp at hf
  | cons sub subs ih =>
      intro st hf
      by_cases hs : subFault deployments fs sub = true
      · unfold subFault at hs
        rcases hd : deployments (fileKey sub) with _ | row
        · rw [hd] at hs; cases hs
        · rw [hd] at hs
          rw [List.any_eq_true] at hs
          obtain ⟨er, her⟩ := processFiles_fault deployments sub row hd (fs sub) st hs
          exact ⟨er, processAll_cons_error deployments fs st sub subs er her⟩
      · rw [Bool.not_eq_true] at hs
        obtain ⟨sub', hsub', hf'⟩ := hf
        rcases List.mem_cons.mp hsub' with rfl | hmem
        · rw [hf'] at hs; cases hs
        · obtain ⟨er, her⟩ := ih _ ⟨sub', hmem, hf'⟩
          refine ⟨er, ?_⟩
          rw [processAll_cons_ok deployments fs st _ sub subs
                (processFiles_noFault deployments fs sub st hs), her]

/-- Conversely, a completed loop had no faults. -/
theorem processAll_ok_noFault (deployments : String × String → Option Row)
    (fs : String → List FileEntry) (subs : List String) (st st' : LoopState)
    (h : processAll deployments fs st subs = .ok st') :
    ∀ sub ∈ subs, subFault deployments fs sub = false := by
  by_contra hf
  push_neg at hf
  obtain ⟨sub, hsub, hne⟩ := hf
  simp only [ne_eq, Bool.not_eq_false] at hne
  obtain ⟨er, her⟩ := processAll_fault deployments fs subs st ⟨sub, hsub, hne⟩
  rw [her] at h
  cases h

/-- Every enumerated file is classified exactly one way: the total is the
sum of the matched and unmatched counts, sub-directory by sub-directory. -/
theorem totalCount_eq_matched_add_unmatched
    (deployments : String × String → Option Row)
    (fs : String → List FileEntry) (subs : List String) :
    totalCount fs subs =
      (matchedOf deployments fs subs).length + (unmatchedOf deployments fs subs).length := by
  induction subs with
  | nil => rfl
  | cons sub subs ih =>
      rcases hd : deployments (fileKey sub) with _ | row <;>
        simp [totalCount, unmatchedOf, matchedOf, hd, ih] <;> omega

/-! ## Lemmas about `mainRun` -/

/-- The initial loop state. -/
theorem mainRun_some (rows : List Row) (fs : String → List FileEntry) :
    mainRun (some rows) fs =
      match processAll (load_deployments rows) fs ⟨0, [], 0, []⟩ ALLOWED_DIRS with
      | .error er => .error er
      | .ok st => .finished ⟨st.total, st.written, st.unmatched⟩ st.sidecars st.unmatched.isEmpty := rfl

/-- A fault-free run completes with the predicted summary, side-car
writes, and pass/fail flag. -/
theorem mainRun_noFault (rows : List Row) (fs : String → List FileEntry)
    (h : ∀ sub ∈ ALLOWED_DIRS, subFault (load_deployments rows) fs sub = false) :
    mainRun (some rows) fs =
      .finished
        ⟨totalCount fs ALLOWED_DIRS,
         (matchedOf (load_deployments rows) fs ALLOWED_DIRS).length,
         unmatchedOf (load_deployments rows) fs ALLOWED_DIRS⟩
        ((matchedOf (load_deployments rows) fs ALLOWED_DIRS).map (fun p => sidecarOf p.1 p.2))
        (unmatchedOf (load_deployments rows) fs ALLOWED_DIRS).isEmpty := by
  rw [mainRun_some, processAll_noFault (load_deployments rows) fs ALLOWED_DIRS _ h]
  simp

/-- A faulting run aborts with an uncaught exception. -/
theorem mainRun_fault (rows : List Row) (fs : String → List FileEntry)
    (h : ∃ sub ∈ ALLOWED_DIRS, subFault (load_deployments rows) fs sub = true) :
    ∃ er, mainRun (some rows) fs = .error er := by
  obtain ⟨er, her⟩ := processAll_fault (load_deployments rows) fs ALLOWED_DIRS ⟨0, [], 0, []⟩ h
  exact ⟨er, by rw [mainRun_some, her]⟩

/-- Inversion: from a completed run, recover that there was no fault and
what the summary, the side-car writes and the flag are. -/
theorem mainRun_finished_inv (rows : List Row) (fs : String → List FileEntry)
    (s : Summary) (sc : List (String × Stub)) (g : Bool)
    (h : mainRun (some rows) fs = .finished s sc g) :
    (∀ sub ∈ ALLOWED_DIRS, subFault (load_deployments rows) fs sub = false) ∧
      s = ⟨totalCount fs ALLOWED_DIRS,
           (matchedOf (load_deployments rows) fs ALLOWED_DIRS).length,
           unmatchedOf (load_deployments rows) fs ALLOWED_DIRS⟩ ∧
      sc = (matchedOf (load_deployments rows) fs ALLOWED_DIRS).map (fun p => sidecarOf p.1 p.2) ∧
      g = (unmatchedOf (load_deployments rows) fs ALLOWED_DIRS).isEmpty := by
  have hnf : ∀ sub ∈ ALLOWED_DIRS, subFault (load_deployments rows) fs sub = false := by
    by_contra hf
    push_neg at hf
    obtain ⟨sub, hsub, hne⟩ := hf
    simp only [ne_eq, Bool.not_eq_false] at hne
    obtain ⟨er, her⟩ := mainRun_fault rows fs ⟨sub, hsub, hne⟩
    rw [her] at h
    cases h
  rw [mainRun_noFault rows fs hnf] at h
  cases h
  exact ⟨hnf, rfl, rfl, rfl⟩

/-! ## Chunked reading reconstructs the full content (for C9) -/

theorem foldl_append_eq_flatten (l : List (List Nat)) (a : List Nat) :
    l.foldl (fun absorbed chunk => absorbed ++ chunk) a = a ++ l.flatten := by
  induction l generalizing a with
  | nil => simp
  | cons x xs ih => simp [ih, List.append_assoc]

theorem readChunksAux_flatten (block : Nat) (hb : block ≠ 0) :
    ∀ (fuel : Nat) (content : List Nat), content.length ≤ fuel →
      (readChunksAux block fuel content).flatten = content := by
  intro fuel
  induction fuel with
  | zero =>
      intro c hc
      rw [List.eq_nil_of_length_eq_zero (Nat.le_zero.mp hc)]
      rfl
  | succ n ih =>
      intro c hc
      rcases c with _ | ⟨b, bs⟩
      · rfl
      · show (readChunksAux block (n + 1) (b :: bs)).flatten = b :: bs
        unfold readChunksAux
        rw [if_neg hb]
        rw [List.flatten_cons, ih ((b :: bs).drop block) ?hlen,
            List.take_append_drop]
        case hlen =>
          simp only [List.length_drop, List.length_cons]
          have h1 : 0 < block := Nat.pos_of_ne_zero hb
          have h2 : bs.length + 1 ≤ n + 1 := by simpa using hc
          omega

theorem readChunks_flatten (block : Nat) (hb : 0 < block) (content : List Nat) :
    (readChunks block content).flatten = content :=
  readChunksAux_flatten block (Nat.pos_iff_ne_zero.mp hb) content.length content
    (Nat.le_refl _)

/-- The streamed digest equals the digest of the full content: absorbing
the chunks in order absorbs exactly the original byte string. -/
theorem sha256sum_eq_sha256hex (content : List Nat) (block : Nat) (hb : 0 < block) :
    sha256sum content block = sha256hex content := by
  unfold sha256sum
  rw [foldl_append_eq_flatten, List.nil_append, readChunks_flatten block hb]

/-! ## Concrete runs used as witnesses and counterexamples -/

/-- A well-formed manifest row matching sub-directory `bird_01`. -/
def rowBird : Row :=
  { device_serial := "BIRD_01"
    deployment_id := "SNARL_BIRD_01_20250610"
    sensor_type := "ARU"
    latitude := "37.61"
    longitude := "-118.83"
    start_utc := some "2025-06-10T08:00:00Z"
    end_utc := none }

/-- A second row with the same composite key as `rowBird` but different
field values. -/
def rowBird2 : Row :=
  { device_serial := "bird_01"
    deployment_id := "SNARL_BIRD_01_20250610"
    sensor_type := "ARU-replacement"
    latitude := "37.62"
    longitude := "-118.84"
    start_utc := none
    end_utc := none }

/-- A row whose deployment_id differs from the derived
`SNARL_BIRD_01_20250610` by letter case only. -/
def rowLowerDep : Row :=
  { device_serial := "BIRD_01"
    deployment_id := "snarl_bird_01_20250610"
    sensor_type := "ARU"
    latitude := "37.61"
    longitude := "-118.83"
    start_utc := none
    end_utc := none }

/-- A row matching `bird_01` whose latitude does not coerce to a number. -/
def rowBadLat : Row :=
  { device_serial := "BIRD_01"
    deployment_id := "SNARL_BIRD_01_20250610"
    sensor_type := "ARU"
    latitude := "abc"
    longitude := "-118.83"
    start_utc := none
    end_utc := none }

/-- An empty batch: no allowed sub-directory holds any file. -/
def fsEmpty : String → List FileEntry := fun _ => []

/-- Two readable empty files under `bird_01` whose stems coincide
(`bird_01/clip.wav` and `bird_01/extra/clip.wav`). -/
def fsTwoClips : String → List FileEntry := fun sub =>
  if sub = "bird_01" then
    [ { rel := "bird_01/clip.wav", stem := "clip", content := some [], mtime := 0 },
      { rel := "bird_01/extra/clip.wav", stem := "clip", content := some [], mtime := 7 } ]
  else []

/-- One unreadable file under `bird_01` (opening it raises `OSError`). -/
def fsUnreadable : String → List FileEntry := fun sub =>
  if sub = "bird_01" then
    [ { rel := "bird_01/clip1.wav", stem := "clip1", content := none, mtime := 0 } ]
  else []

/-- One readable empty file under `bird_01`. -/
def fsOneClip : String → List FileEntry := fun sub =>
  if sub = "bird_01" then
    [ { rel := "bird_01/clip1.wav", stem := "clip1", content := some [], mtime := 0 } ]
  else []

/-- One readable file under `bat_01` only. -/
def fsBatOnly : String → List FileEntry := fun sub =>
  if sub = "bat_01" then
    [ { rel := "bat_01/x.wav", stem := "x", content := some [], mtime := 0 } ]
  else []

/-! ## Helper facts for the claim theorems -/

theorem subFault_all_false (deployments : String × String → Option Row)
    (fs : String → List FileEntry)
    (h : ¬ ∃ sub ∈ ALLOWED_DIRS, subFault deployments fs sub = true) :
    ∀ sub ∈ ALLOWED_DIRS, subFault deployments fs sub = false := by
  intro sub hsub
  rcases hsf : subFault deployments fs sub with _ | _
  · rfl
  · exact absurd ⟨sub, hsub, hsf⟩ h

theorem unmatchedOf_eq_flatMap (deployments : String × String → Option Row)
    (fs : String → List FileEntry) (subs : List String) :
    unmatchedOf deployments fs subs =
      subs.flatMap (fun sub =>
        if (deployments (fileKey sub)).isSome then []
        else (fs sub).map FileEntry.rel) := by
  induction subs with
  | nil => rfl
  | cons sub subs ih =>
      rcases hd : deployments (fileKey sub) with _ | row <;>
        simp [unmatchedOf, hd, ih]

set_option maxRecDepth 40000

/-! ## Claim C1 -/

/-- C1 counterexample: with the single matching manifest row `rowBird`
and two matched files `bird_01/clip.wav` and `bird_01/extra/clip.wav`
that share the stem `clip`, the run completes with 2 files matched and
2 side-car writes, but both writes go to the same file name
`clip.json` — so only **one** descriptor file exists for two matched
files, refuting "exactly one descriptor file exists per matched file"
(the second write overwrites the first). -/
theorem C1_counterexample :
    summaryOf (mainRun (some [rowBird]) fsTwoClips) = some ⟨2, 2, []⟩ ∧
    sidecarNamesOf (mainRun (some [rowBird]) fsTwoClips) =
      some ["clip.json", "clip.json"] ∧
    (["clip.json", "clip.json"] : List String).dedup.length = 1 := by
  refine ⟨?_, ?_, by decide⟩ <;> decide

/-- C1 (amended): in a completed run a side-car write is performed
exactly for the matched files — the write count equals the matched count
and the writes are, in order, one per matched file — but each write goes
to a file named after the stem alone, so matched files sharing a stem
overwrite the same descriptor file and the number of distinct descriptor
files is the number of distinct matched stems, which can be smaller than
the matched count. -/
theorem C1_descriptor_writes (rows : List Row) (fs : String → List FileEntry)
    (s : Summary) (sc : List (String × Stub)) (g : Bool)
    (h : mainRun (some rows) fs = .finished s sc g) :
    s.written = (matchedOf (load_deployments rows) fs ALLOWED_DIRS).length ∧
    sc.map Prod.fst =
      (matchedOf (load_deployments rows) fs ALLOWED_DIRS).map
        (fun p => p.2.stem ++ ".json") ∧
    sc.length = s.written := by
  obtain ⟨hnf, hs, hsc, hg⟩ := mainRun_finished_inv rows fs s sc g h
  subst hs
  subst hsc
  refine ⟨rfl, ?_, by simp⟩
  simp [List.map_map, sidecarOf, Function.comp]

/-- Witness for C1: a concrete completed run (one unmatched file, no
matched files) at which the amended statement is instantiated. -/
theorem C1_witness :
    (⟨1, 0, ["bat_01/x.wav"]⟩ : Summary).written =
      (matchedOf (load_deployments [rowBird]) fsBatOnly ALLOWED_DIRS).length ∧
    ([] : List (String × Stub)).map Prod.fst =
      (matchedOf (load_deployments [rowBird]) fsBatOnly ALLOWED_DIRS).map
        (fun p => p.2.stem ++ ".json") ∧
    ([] : List (String × Stub)).length = (⟨1, 0, ["bat_01/x.wav"]⟩ : Summary).written :=
  C1_descriptor_writes [rowBird] fsBatOnly ⟨1, 0, ["bat_01/x.wav"]⟩ [] false (by decide)

/-! ## Claim C2 -/

/-- C2 counterexample: the manifest is present and loads, and the single
discovered file matches its row, so nothing is unmatched — yet the run
terminates with a failure indication, because the matched file is
unreadable and the `OSError` raised while fingerprinting propagates out
of `main` (no summary is even produced).  This refutes the "only if"
direction of the claimed exit contract. -/
theorem C2_counterexample :
    mainRun (some [rowBird]) fsUnreadable = .error (.ioError "bird_01/clip1.wav") ∧
    exitFailure (mainRun (some [rowBird]) fsUnreadable) = true ∧
    unmatchedOf (load_deployments [rowBird]) fsUnreadable ALLOWED_DIRS = [] := by
  refine ⟨?_, ?_, ?_⟩ <;> decide

/-- C2 (amended): the run terminates with a failure indication if and
only if the manifest file is missing, or some file raises an uncaught
exception (an unreadable matched file, or a matched row whose
latitude/longitude does not coerce), or the unmatched classification is
non-empty; it terminates successfully in all other cases. -/
theorem C2_exit_contract (manifest : Option (List Row)) (fs : String → List FileEntry) :
    exitFailure (mainRun manifest fs) = true ↔
      (manifest = none ∨
        ∃ rows, manifest = some rows ∧
          ((∃ sub ∈ ALLOWED_DIRS, subFault (load_deployments rows) fs sub = true) ∨
           unmatchedOf (load_deployments rows) fs ALLOWED_DIRS ≠ [])) := by
  rcases manifest with _ | rows
  · simp [mainRun, exitFailure]
  · constructor
    · intro hfail
      by_cases hf : ∃ sub ∈ ALLOWED_DIRS, subFault (load_deployments rows) fs sub = true
      · exact Or.inr ⟨rows, rfl, Or.inl hf⟩
      · rw [mainRun_noFault rows fs (subFault_all_false _ fs hf)] at hfail
        refine Or.inr ⟨rows, rfl, Or.inr ?_⟩
        intro hemp
        rw [hemp] at hfail
        simp [exitFailure] at hfail
    · rintro (hnone | ⟨rows', heq, hcond⟩)
      · cases hnone
      · injection heq with h'
        subst h'
        rcases hcond with hf | hne
        · obtain ⟨er, her⟩ := mainRun_fault rows fs hf
          rw [her]
          rfl
        · by_cases hf : ∃ sub ∈ ALLOWED_DIRS, subFault (load_deployments rows) fs sub = true
          · obtain ⟨er, her⟩ := mainRun_fault rows fs hf
            rw [her]
            rfl
          · rw [mainRun_noFault rows fs (subFault_all_false _ fs hf)]
            rcases hu : unmatchedOf (load_deployments rows) fs ALLOWED_DIRS with _ | ⟨p, ps⟩
            · exact absurd hu hne
            · rfl

/-! ## Claim C3 -/

/-- C3 counterexample: `rowBadLat` has latitude `"abc"`, which `float`
cannot coerce — yet the loader does **not** exclude it from the index
(the derived key maps to the row), and when the readable file
`bird_01/clip1.wav` matches that row the whole run aborts with the
uncaught `ValueError` raised inside `build_stub`.  Both halves of the
claim fail. -/
theorem C3_counterexample :
    (pyFloat rowBadLat.latitude).isNone = true ∧
    load_deployments [rowBadLat] (fileKey "bird_01") = some rowBadLat ∧
    mainRun (some [rowBadLat]) fsOneClip = .error (.valueError "bird_01/clip1.wav") := by
  refine ⟨?_, ?_, ?_⟩ <;> decide

/-- C3 (amended): a manifest row whose latitude or longitude is not
coercible is **kept** in the ManifestIndex (no row is ever excluded);
the coercion failure only surfaces when a discovered file matches such a
row, and then it aborts the whole run with an uncaught exception. -/
theorem C3_bad_row_aborts (rows : List Row) (fs : String → List FileEntry)
    (sub : String) (row : Row)
    (hsub : sub ∈ ALLOWED_DIRS)
    (hrow : load_deployments rows (fileKey sub) = some row)
    (hbad : (pyFloat row.latitude).isNone = true ∨ (pyFloat row.longitude).isNone = true)
    (hne : fs sub ≠ []) :
    (∀ r ∈ rows, (load_deployments rows (rowKey r)).isSome = true) ∧
    ∃ er, mainRun (some rows) fs = .error er := by
  refine ⟨fun r hr => load_deployments_mem rows r hr, ?_⟩
  rcases hfs : fs sub with _ | ⟨e, es⟩
  · exact absurd hfs hne
  · refine mainRun_fault rows fs ⟨sub, hsub, ?_⟩
    unfold subFault
    rw [hrow, hfs]
    have hef : entryFault row e = true := by
      unfold entryFault
      rcases hc : e.content with _ | bytes
      · rfl
      · rcases hbad with hb | hb <;> simp [hb]
    simp [hef]

/-- Witness for C3: the amended statement instantiated at the
`rowBadLat`/`fsOneClip` run. -/
theorem C3_witness :
    (∀ r ∈ [rowBadLat], (load_deployments [rowBadLat] (rowKey r)).isSome = true) ∧
    ∃ er, mainRun (some [rowBadLat]) fsOneClip = .error er :=
  C3_bad_row_aborts [rowBadLat] fsOneClip "bird_01" rowBadLat
    (by decide) (by decide) (by decide) (by decide)

/-! ## Claim C4 -/

/-- C4 counterexample: the matched file `bird_01/clip1.wav` cannot be
opened; the `OSError` raised by `sha256sum` is **not** a per-file
failure — it propagates and aborts the whole run before any summary or
report is produced, refuting "the failure does not abort the whole
run". -/
theorem C4_counterexample :
    mainRun (some [rowBird]) fsUnreadable = .error (.ioError "bird_01/clip1.wav") ∧
    summaryOf (mainRun (some [rowBird]) fsUnreadable) = none ∧
    sidecarNamesOf (mainRun (some [rowBird]) fsUnreadable) = none := by
  refine ⟨?_, ?_, ?_⟩ <;> decide

/-- C4 (amended): a matched file that cannot be opened or read during
fingerprinting raises an uncaught `OSError` that aborts the whole run:
the loop stops, no summary is produced, and no further descriptor is
written. -/
theorem C4_unreadable_aborts (rows : List Row) (fs : String → List FileEntry)
    (sub : String) (row : Row) (e : FileEntry)
    (hsub : sub ∈ ALLOWED_DIRS)
    (hrow : load_deployments rows (fileKey sub) = some row)
    (he : e ∈ fs sub) (hc : e.content = none) :
    (∃ er, mainRun (some rows) fs = .error er) ∧
    summaryOf (mainRun (some rows) fs) = none := by
  have hfault : ∃ sub' ∈ ALLOWED_DIRS, subFault (load_deployments rows) fs sub' = true := by
    refine ⟨sub, hsub, ?_⟩
    unfold subFault
    rw [hrow]
    have hef : entryFault row e = true := by
      unfold entryFault
      rw [hc]
    rw [List.any_eq_true]
    exact ⟨e, he, hef⟩
  obtain ⟨er, her⟩ := mainRun_fault rows fs hfault
  exact ⟨⟨er, her⟩, by rw [her]; rfl⟩

/-- Witness for C4: the amended statement instantiated at the
`rowBird`/`fsUnreadable` run. -/
theorem C4_witness :
    (∃ er, mainRun (some [rowBird]) fsUnreadable = .error er) ∧
    summaryOf (mainRun (some [rowBird]) fsUnreadable) = none :=
  C4_unreadable_aborts [rowBird] fsUnreadable "bird_01" rowBird
    ⟨"bird_01/clip1.wav", "clip1", none, 0⟩
    (by decide) (by decide) (by decide) (by decide)

/-! ## Claim C5 -/

/-- C5: in every run that produces a summary, the total file count
equals the matched (= written) count plus the unmatched count, and the
three numbers are exactly the sizes of the enumeration, the matched
list, and the unmatched list — every enumerated file lands in exactly
one of the two lists (each sub-directory contributes all of its files to
exactly one side). -/
theorem C5_partition (rows : List Row) (fs : String → List FileEntry)
    (s : Summary) (sc : List (String × Stub)) (g : Bool)
    (h : mainRun (some rows) fs = .finished s sc g) :
    s.total = s.written + s.unmatched.length ∧
    s.total = totalCount fs ALLOWED_DIRS ∧
    s.written = (matchedOf (load_deployments rows) fs ALLOWED_DIRS).length ∧
    s.unmatched = unmatchedOf (load_deployments rows) fs ALLOWED_DIRS := by
  obtain ⟨hnf, hs, hsc, hg⟩ := mainRun_finished_inv rows fs s sc g h
  subst hs
  exact ⟨totalCount_eq_matched_add_unmatched (load_deployments rows) fs ALLOWED_DIRS,
         rfl, rfl, rfl⟩

/-- Witness for C5: the concrete run with one unmatched `bat_01` file
(total 1 = 0 matched + 1 unmatched). -/
theorem C5_witness :
    (⟨1, 0, ["bat_01/x.wav"]⟩ : Summary).total =
      (⟨1, 0, ["bat_01/x.wav"]⟩ : Summary).written +
        (⟨1, 0, ["bat_01/x.wav"]⟩ : Summary).unmatched.length ∧
    (⟨1, 0, ["bat_01/x.wav"]⟩ : Summary).total = totalCount fsBatOnly ALLOWED_DIRS ∧
    (⟨1, 0, ["bat_01/x.wav"]⟩ : Summary).written =
      (matchedOf (load_deployments [rowBird]) fsBatOnly ALLOWED_DIRS).length ∧
    (⟨1, 0, ["bat_01/x.wav"]⟩ : Summary).unmatched =
      unmatchedOf (load_deployments [rowBird]) fsBatOnly ALLOWED_DIRS :=
  C5_partition [rowBird] fsBatOnly ⟨1, 0, ["bat_01/x.wav"]⟩ [] false (by decide)

/-! ## Claim C6 -/

/-- C6: keys are derived exactly as specified.  (1) Every key present in
the ManifestIndex is `(device_serial.upper(), deployment_id)` of the row
it maps to — the serial upper-cased, the deployment id verbatim.
(2) The key derived for a file is determined by its containing
sub-directory: the serial is the sub-directory name upper-cased, and the
deployment id is the synthesized `SITE_ID ++ "_" ++ serial ++ "_" ++
VISIT_DATE`.  (3) The per-file step consults the index at that derived
key and nothing else: two indices that agree on the derived key process
any file identically. -/
theorem C6_key_derivation :
    (∀ (rows : List Row) (k : String × String) (r : Row),
        load_deployments rows k = some r →
          k = (pyUpper r.device_serial, r.deployment_id)) ∧
    (∀ sub : String,
        fileKey sub = (pyUpper sub, SITE_ID ++ "_" ++ pyUpper sub ++ "_" ++ VISIT_DATE)) ∧
    (∀ (d d' : String × String → Option Row) (sub : String) (st : LoopState) (e : FileEntry),
        d (fileKey sub) = d' (fileKey sub) →
        processFile d sub st e = processFile d' sub st e) := by
  refine ⟨fun rows k r h => load_deployments_key rows k r h, fun sub => rfl, ?_⟩
  intro d d' sub st e h
  unfold processFile
  rw [h]

/-- Witness for C6: at the one-row manifest `[rowBird]`, the key found
in the index is the derived `(upper serial, verbatim deployment id)`
pair, and per-file processing under `bird_01` only consults that key. -/
theorem C6_witness :
    fileKey "bird_01" = (pyUpper rowBird.device_serial, rowBird.deployment_id) ∧
    processFile (load_deployments [rowBird]) "bird_01" ⟨0, [], 0, []⟩
        ⟨"bird_01/clip1.wav", "clip1", some [], 0⟩ =
      processFile (fun k => if k = fileKey "bird_01" then some rowBird else none)
        "bird_01" ⟨0, [], 0, []⟩ ⟨"bird_01/clip1.wav", "clip1", some [], 0⟩ :=
  ⟨C6_key_derivation.1 [rowBird] (fileKey "bird_01") rowBird (by decide),
   C6_key_derivation.2.2 (load_deployments [rowBird])
     (fun k => if k = fileKey "bird_01" then some rowBird else none)
     "bird_01" ⟨0, [], 0, []⟩ ⟨"bird_01/clip1.wav", "clip1", some [], 0⟩ (by decide)⟩

/-! ## Claim C7 -/

/-- C7: matching is an exact-equality lookup with no retry: when the
derived key is absent from the index — in particular when every manifest
row's key differs from it, even one differing only by letter case in the
deployment-id component — the file is classified Unmatched (appended to
the unmatched list, nothing written, nothing else consulted). -/
theorem C7_absent_key_unmatched (rows : List Row) (sub : String)
    (st : LoopState) (e : FileEntry) :
    (load_deployments rows (fileKey sub) = none →
       processFile (load_deployments rows) sub st e =
         .ok ⟨st.total + 1, st.unmatched ++ [e.rel], st.written, st.sidecars⟩) ∧
    ((∀ r ∈ rows, rowKey r ≠ fileKey sub) →
       processFile (load_deployments rows) sub st e =
         .ok ⟨st.total + 1, st.unmatched ++ [e.rel], st.written, st.sidecars⟩) := by
  constructor
  · intro h
    exact processFile_unmatched _ sub st e h
  · intro h
    exact processFile_unmatched _ sub st e (load_deployments_eq_none rows _ h)

/-- Witness for C7: `rowLowerDep`'s deployment id
`snarl_bird_01_20250610` differs from the derived
`SNARL_BIRD_01_20250610` by case only (the serial components agree), and
the file under `bird_01` is classified Unmatched. -/
theorem C7_witness :
    (rowKey rowLowerDep).1 = (fileKey "bird_01").1 ∧
    rowKey rowLowerDep ≠ fileKey "bird_01" ∧
    processFile (load_deployments [rowLowerDep]) "bird_01" ⟨0, [], 0, []⟩
        ⟨"bird_01/clip1.wav", "clip1", some [], 0⟩ =
      .ok ⟨1, ["bird_01/clip1.wav"], 0, []⟩ :=
  ⟨by decide, by decide,
   (C7_absent_key_unmatched [rowLowerDep] "bird_01" ⟨0, [], 0, []⟩
      ⟨"bird_01/clip1.wav", "clip1", some [], 0⟩).2 (by decide)⟩

/-! ## Claim C8 -/

/-- C8: on duplicate composite keys the last row silently wins: if `r1`
occurs earlier in the manifest with the same key as a later row `r`, and
no row after `r` bears that key, the index maps the shared key to `r` —
`r1`'s data is dropped without any error (the loader is total). -/
theorem C8_last_row_wins (l1 : List Row) (r : Row) (l2 : List Row) (r1 : Row)
    (_hr1 : r1 ∈ l1) (hkey : rowKey r1 = rowKey r)
    (h : ∀ r' ∈ l2, rowKey r' ≠ rowKey r) :
    load_deployments (l1 ++ r :: l2) (rowKey r) = some r ∧
    load_deployments (l1 ++ r :: l2) (rowKey r1) = some r := by
  refine ⟨load_deployments_last l1 r l2 h, ?_⟩
  rw [hkey]
  exact load_deployments_last l1 r l2 h

/-- Witness for C8: `rowBird` and `rowBird2` share the composite key
(their serials differ only by case before normalization); the loaded
index returns `rowBird2`, the later row. -/
theorem C8_witness :
    load_deployments [rowBird, rowBird2] (rowKey rowBird2) = some rowBird2 ∧
    load_deployments [rowBird, rowBird2] (rowKey rowBird) = some rowBird2 :=
  C8_last_row_wins [rowBird] rowBird2 [] rowBird (by decide) (by decide)
    (by intro r' hr'; cases hr')

/-! ## Claim C9 -/

/-- C9: the fingerprint is deterministic and content-addressed.
Reading in bounded chunks of any positive size yields exactly the
SHA-256 hex digest of the full byte content, and two files with
identical bytes receive identical descriptor checksums however much
their paths, stems or mtimes differ (`sha256sum` is a pure function of
the content alone). -/
theorem C9_fingerprint_content_addressed (content : List Nat) (block : Nat)
    (hb : 0 < block) (row : Row) (e1 e2 : FileEntry)
    (h1 : e1.content = some content) (h2 : e2.content = some content) :
    sha256sum content block = sha256hex content ∧
    (stubOf row e1).checksum_sha256 = (stubOf row e2).checksum_sha256 := by
  refine ⟨sha256sum_eq_sha256hex content block hb, ?_⟩
  simp [stubOf, h1, h2]

/-- Witness for C9: two entries with different paths and mtimes but the
same (empty) content. -/
theorem C9_witness :
    sha256sum [] 1 = sha256hex [] ∧
    (stubOf rowBird ⟨"bird_01/a.wav", "a", some [], 0⟩).checksum_sha256 =
      (stubOf rowBird ⟨"bird_01/b/a.wav", "b-a", some [], 99⟩).checksum_sha256 :=
  C9_fingerprint_content_addressed [] 1 (by decide) rowBird
    ⟨"bird_01/a.wav", "a", some [], 0⟩ ⟨"bird_01/b/a.wav", "b-a", some [], 99⟩
    (by decide) (by decide)

/-! ## Claim C10 -/

/-- C10: for a fixed manifest, match classification depends only on the
containing sub-directory: the unmatched list of a completed run is
assembled sub-directory by sub-directory, each allowed sub-directory
contributing either none of its files (when its derived key is in the
index) or all of them (when it is not) — never a proper subset. -/
theorem C10_classification_per_sub (rows : List Row) (fs : String → List FileEntry)
    (s : Summary) (sc : List (String × Stub)) (g : Bool)
    (h : mainRun (some rows) fs = .finished s sc g) :
    s.unmatched = ALLOWED_DIRS.flatMap (fun sub =>
      if (load_deployments rows (fileKey sub)).isSome then []
      else (fs sub).map FileEntry.rel) := by
  obtain ⟨hnf, hs, hsc, hg⟩ := mainRun_finished_inv rows fs s sc g h
  subst hs
  exact unmatchedOf_eq_flatMap (load_deployments rows) fs ALLOWED_DIRS

/-- Witness for C10: the `fsBatOnly` run — `bat_01` has no manifest row,
so that sub-directory contributes all of its files to the unmatched
list; the other sub-directories contribute none. -/
theorem C10_witness :
    (⟨1, 0, ["bat_01/x.wav"]⟩ : Summary).unmatched =
      ALLOWED_DIRS.flatMap (fun sub =>
        if (load_deployments [rowBird] (fileKey sub)).isSome then []
        else (fsBatOnly sub).map FileEntry.rel) :=
  C10_classification_per_sub [rowBird] fsBatOnly ⟨1, 0, ["bat_01/x.wav"]⟩ [] false
    (by decide)
